import Mathlib

/-!
Verification development for the Aviary mission-ODE assembly and propeller
map ingestion code.

The definitions below are a shallow embedding of:
* `aviary/mission/gasp_based/ode/unsteady_solved/unsteady_solved_ode.py`
  (`UnsteadySolvedODE.initialize` / `UnsteadySolvedODE.setup`),
* `aviary/mission/gasp_based/ode/groundroll_ode.py` (`GroundrollODE.setup`),
* `aviary/subsystems/propulsion/propeller_map.py` (`PropellerMap._read_data`).

Python dictionaries are embedded as association lists (insertion ordered,
`dict.update` keeps the position of an existing key and appends fresh keys),
floating point literals as exact rationals, and the OpenMDAO group/balance
configuration calls as records collecting exactly the arguments the source
passes.
-/

set_option autoImplicit false

/-- Python `d[k] = v` on an insertion-ordered dictionary represented as an
association list: replace the value at the first matching key in place,
otherwise append the new pair at the end. -/
def assocSet {α β : Type} [DecidableEq α] (d : List (α × β)) (k : α) (v : β) :
    List (α × β) :=
  if d.any (fun p => decide (p.1 = k)) then
    d.map (fun p => if p.1 = k then (k, v) else p)
  else
    d ++ [(k, v)]

/-- Python `d[k]` lookup (first matching key). -/
def assocGet {α β : Type} [DecidableEq α] (d : List (α × β)) (k : α) : Option β :=
  (d.find? (fun p => decide (p.1 = k))).map Prod.snd

/-- The keys of a dictionary, in order. -/
def dictKeys {α β : Type} (d : List (α × β)) : List α := d.map Prod.fst

/-- Python `d.update(new)`: assign every pair of `new` into `d`, in order. -/
def dictUpdate {α β : Type} [DecidableEq α] (d new : List (α × β)) :
    List (α × β) :=
  new.foldl (fun acc p => assocSet acc p.1 p.2) d

theorem assocSet_keys {α β : Type} [DecidableEq α] (d : List (α × β)) (k : α)
    (v : β) :
    dictKeys (assocSet d k v) =
      if d.any (fun p => decide (p.1 = k)) then dictKeys d
      else dictKeys d ++ [k] := by
  unfold assocSet dictKeys
  split
  · rw [List.map_map]
    refine List.map_congr_left ?_
    intro p _
    by_cases h : p.1 = k
    · simp [h]
    · simp [h]
  · simp

theorem mem_keys_assocSet_of_mem {α β : Type} [DecidableEq α]
    (d : List (α × β)) (k k0 : α) (v : β) (h : k0 ∈ dictKeys d) :
    k0 ∈ dictKeys (assocSet d k v) := by
  rw [assocSet_keys]
  split
  · exact h
  · exact List.mem_append_left _ h

theorem mem_keys_assocSet_self {α β : Type} [DecidableEq α]
    (d : List (α × β)) (k : α) (v : β) : k ∈ dictKeys (assocSet d k v) := by
  rw [assocSet_keys]
  split
  · rename_i h
    rcases List.any_eq_true.mp h with ⟨p, hp, hpk⟩
    have : p.1 = k := of_decide_eq_true hpk
    subst this
    exact List.mem_map_of_mem Prod.fst hp
  · exact List.mem_append_right _ (List.mem_singleton.mpr rfl)

theorem mem_keys_dictUpdate_of_mem {α β : Type} [DecidableEq α]
    (d new : List (α × β)) (k0 : α) (h : k0 ∈ dictKeys d) :
    k0 ∈ dictKeys (dictUpdate d new) := by
  induction new generalizing d with
  | nil => exact h
  | cons p rest ih =>
      exact ih (assocSet d p.1 p.2) (mem_keys_assocSet_of_mem d p.1 k0 p.2 h)

theorem mem_keys_dictUpdate_of_mem_new {α β : Type} [DecidableEq α]
    (d new : List (α × β)) (k0 : α) (h : k0 ∈ dictKeys new) :
    k0 ∈ dictKeys (dictUpdate d new) := by
  induction new generalizing d with
  | nil => cases h
  | cons p rest ih =>
      rcases List.mem_cons.mp h with h0 | h0
      · subst h0
        exact mem_keys_dictUpdate_of_mem _ rest p.1
          (mem_keys_assocSet_self d p.1 p.2)
      · exact ih (assocSet d p.1 p.2) h0

/-- Values stored in the `kwargs` dictionary that `UnsteadySolvedODE.setup` and
`GroundrollODE.setup` thread through the subsystem loop: `num_nodes` is an
integer, `method` a string, `aviary_inputs` the shared `AviaryValues` object,
and override values coming from `subsystem_options` are arbitrary Python
objects, abstracted by an index. -/
inductive KwValue : Type
| vNat (n : Nat)
| vStr (s : String)
| vAviaryInputs
| vOther (tag : Nat)
deriving DecidableEq

/-- The enum `aviary.variable_info.enums.SpeedType` (only its identity
matters here). -/
inductive SpeedType : Type
| TAS
| EAS
| MACH
deriving DecidableEq

/-- The enum `aviary.variable_info.enums.LegacyCode`. -/
inductive LegacyCode : Type
| FLOPS
| GASP
deriving DecidableEq

/-- Capability type of a subsystem builder, i.e. which builder base class the
instance is an `isinstance` of: `AerodynamicsBuilderBase`,
`PropulsionBuilderBase`, or neither. -/
inductive BuilderKind : Type
| aerodynamics
| propulsion
| other
deriving DecidableEq

/-- A core subsystem builder as seen by the two ODE `setup` methods: its
`name`, its capability type, its `code_origin`, whether `build_mission`
returns a system (`builds = true`) or `None`, and the input/output variable
name lists reported by `mission_inputs` / `mission_outputs`. -/
structure SubsystemBuilder : Type where
  name : String
  kind : BuilderKind
  code_origin : LegacyCode
  builds : Bool
  mission_inputs : List String
  mission_outputs : List String
deriving DecidableEq

/-- OpenMDAO groups the ODE places built subsystems into: the ODE itself
(`self.add_subsystem`), the `control_iter_group`, or the
`throttle_balance_group`. -/
inductive Scope : Type
| topLevel
| controlIterGroup
| throttleBalanceGroup
deriving DecidableEq

/-- A promoted variable name: either promoted under its own name or aliased
(`(external_name, internal_name)` tuple in OpenMDAO promotes lists). -/
inductive Promoted : Type
| plain (s : String)
| aliased (external internal : String)
deriving DecidableEq

/-- One `add_subsystem` call made for a built core subsystem: where it was
placed and with which promotes lists. -/
structure PlacedSubsystem : Type where
  name : String
  scope : Scope
  promotes_inputs : List Promoted
  promotes_outputs : List Promoted
deriving DecidableEq

/-- Record of one iteration of the subsystem loop: the subsystem name, the
contents of the shared `kwargs` dictionary at that iteration (the same
dictionary is passed to `build_mission`, and — when the subsystem builds —
to `mission_inputs` and `mission_outputs`), and whether `build_mission`
returned a system. -/
structure SubsystemCall : Type where
  name : String
  kwargs : List (String × KwValue)
  built : Bool
deriving DecidableEq

/-- The per-iteration `kwargs` update of both ODE setups:
`if subsystem.name in subsystem_options: kwargs.update(subsystem_options[subsystem.name])`. -/
def stepKwargs (subsystem_options : List (String × List (String × KwValue)))
    (kw : List (String × KwValue)) (s : SubsystemBuilder) :
    List (String × KwValue) :=
  match assocGet subsystem_options s.name with
  | some o => dictUpdate kw o
  | none => kw

/-- The shared `for subsystem in core_subsystems` loop of both ODE setups.
Returns the list of per-iteration call records and the list of
`add_subsystem` placements of the subsystems that built (`place` gives the
ODE-specific scope and promotes lists). -/
def odeLoop (place : SubsystemBuilder → PlacedSubsystem)
    (subsystem_options : List (String × List (String × KwValue)))
    (kw : List (String × KwValue)) :
    List SubsystemBuilder → List SubsystemCall × List PlacedSubsystem
  | [] => ([], [])
  | s :: rest =>
      let kw2 := stepKwargs subsystem_options kw s
      let res := odeLoop place subsystem_options kw2 rest
      (⟨s.name, kw2, s.builds⟩ :: res.1,
       (if s.builds then [place s] else []) ++ res.2)

/-- One `BalanceComp.add_balance` call: the implicit (control) variable name,
its units, its initial value vector (`val`), the left/right hand side names of
the residual `lhs - rhs`, the residual units, the `normalize` flag, the
optional `lower` / `upper` bounds on the control, and the optional `res_ref`
scaling. `none` for a bound or `res_ref` means the argument was left at the
OpenMDAO default (`None` / absent). -/
structure BalanceSpec : Type where
  name : String
  units : String
  val : List ℚ
  lhs_name : String
  rhs_name : String
  eq_units : String
  normalize : Bool
  lower : Option ℚ
  upper : Option ℚ
  res_ref : Option ℚ
deriving DecidableEq

/-- The values of the `throttle_enforcement` option declared by
`UnsteadySolvedODE.initialize`: `'path_constraint'`, `'boundary_constraint'`,
`'bounded'`, or Python `None` (here `disabled`). -/
inductive ThrottleEnforcement : Type
| path_constraint
| boundary_constraint
| bounded
| disabled
deriving DecidableEq

/-- The `add_balance(Dynamic.Mission.THROTTLE, ...)` call on
`throttle_balance_comp` in `UnsteadySolvedODE.setup`: initial value
`np.ones(nn) * 0.5`, residual `thrust_total - thrust_req` in `lbf`,
`lower=0.0` and `upper=1.0` exactly when `throttle_enforcement == 'bounded'`
(otherwise `None`), `res_ref=1.0e6`. -/
def throttleBalanceSpec (nn : Nat) (enforcement : ThrottleEnforcement) :
    BalanceSpec where
  name := "throttle"
  units := "unitless"
  val := List.replicate nn (1 / 2 : ℚ)
  lhs_name := "thrust_net_total"
  rhs_name := "thrust_req"
  eq_units := "lbf"
  normalize := false
  lower := if enforcement = ThrottleEnforcement.bounded then some 0 else none
  upper := if enforcement = ThrottleEnforcement.bounded then some 1 else none
  res_ref := some 1000000

/-- The `add_balance("alpha", ...)` call on `thrust_alpha_bal` in
`UnsteadySolvedODE.setup`, made only when the phase is not a ground-roll
phase: initial value `np.zeros(nn)`, residual
`dgam_dt_approx - dgam_dt` in `rad/s`, no bounds. -/
def alphaBalanceSpec (nn : Nat) : BalanceSpec where
  name := "alpha"
  units := "rad"
  val := List.replicate nn (0 : ℚ)
  lhs_name := "dgam_dt_approx"
  rhs_name := "dgam_dt"
  eq_units := "rad/s"
  normalize := false
  lower := none
  upper := none
  res_ref := none

/-- The `add_balance("thrust_req", ...)` call on `thrust_alpha_bal` in
`UnsteadySolvedODE.setup`: initial value `100*np.ones(nn)` in newtons,
residual `dTAS_dt_approx - dTAS_dt` in `m/s**2`, no bounds. -/
def thrustReqBalanceSpec (nn : Nat) : BalanceSpec where
  name := "thrust_req"
  units := "N"
  val := List.replicate nn (100 : ℚ)
  lhs_name := "dTAS_dt_approx"
  rhs_name := "dTAS_dt"
  eq_units := "m/s**2"
  normalize := false
  lower := none
  upper := none
  res_ref := none

/-- Configuration of one `om.NewtonSolver` as set up by
`UnsteadySolvedODE.setup`: `solve_subsystems`, absolute and relative
tolerances, whether a `BoundsEnforceLS` line search was attached, and the
`err_on_non_converge` option. -/
structure NewtonSolverConfig : Type where
  solve_subsystems : Bool
  atol : ℚ
  rtol : ℚ
  linesearch_bounds_enforce : Bool
  err_on_non_converge : Bool
deriving DecidableEq

/-- OpenMDAO solvers leave the `err_on_non_converge` option off unless the
caller sets it: a non-converged (diverged) solve then only emits a warning
and returns the last iterate instead of raising an error. The source sets
the option to `True` on the throttle balance group solver only. -/
def errOnNonConvergeDefault : Bool := false

/-- Solver of `throttle_balance_group`: `NewtonSolver(solve_subsystems=True,
atol=1.0e-10, rtol=1.0e-10)` with a `BoundsEnforceLS` line search and
`err_on_non_converge` set to `True`. -/
def throttleBalanceSolverConfig : NewtonSolverConfig where
  solve_subsystems := true
  atol := 1 / 10000000000
  rtol := 1 / 10000000000
  linesearch_bounds_enforce := true
  err_on_non_converge := true

/-- Solver of `control_iter_group`: `NewtonSolver(solve_subsystems=True,
atol=1.0e-10, rtol=1.0e-10)`; the `BoundsEnforceLS` line for this group is
commented out in the source and `err_on_non_converge` is never set, so it
keeps the OpenMDAO default. -/
def controlIterSolverConfig : NewtonSolverConfig where
  solve_subsystems := true
  atol := 1 / 10000000000
  rtol := 1 / 10000000000
  linesearch_bounds_enforce := false
  err_on_non_converge := errOnNonConvergeDefault

/-- Modelled from the spec: whether a solve that reaches `DIVERGED` is
surfaced to the caller as a raised structured error. The OpenMDAO solver
implementation is outside the repository sources; per its documented
behaviour a diverged solve raises exactly when `err_on_non_converge` is
set, and otherwise returns silently after a warning. -/
def raisesOnDiverged (cfg : NewtonSolverConfig) : Bool :=
  cfg.err_on_non_converge

/-- Modelled from the spec: the bounds-respecting line search
(`BoundsEnforceLS`, default `scalar` bound enforcement) clips each violating
entry of the post-step vector back to its bound; entries without bounds are
left unchanged. The OpenMDAO line-search implementation is outside the
repository sources. -/
def enforceBounds (lower upper : Option ℚ) (x : ℚ) : ℚ :=
  let y := match lower with
    | some lo => max lo x
    | none => x
  match upper with
  | some hi => min hi y
  | none => y

/-- Modelled from the spec: one Newton update `x + dx` of a balance variable
followed by the bounds enforcement of the attached line search. -/
def lineSearchStep (b : BalanceSpec) (x dx : ℚ) : ℚ :=
  enforceBounds b.lower b.upper (x + dx)

/-- Options of `UnsteadySolvedODE` (declared in `initialize`), with their
declared defaults. -/
structure UnsteadyOptions : Type where
  num_nodes : Nat
  ground_roll : Bool := false
  clean : Bool := false
  include_param_comp : Bool := true
  input_speed_type : SpeedType := SpeedType.TAS
  throttle_enforcement : ThrottleEnforcement := ThrottleEnforcement.path_constraint
  initial_throttle_lapse : ℚ := 0
  final_throttle_lapse : ℚ := 0
  core_subsystems : List SubsystemBuilder := []
  subsystem_options : List (String × List (String × KwValue)) := []

/-- Result of `UnsteadySolvedODE.setup`: the balances added to the
throttle balance group and to the control iteration group (in `add_balance`
order), the two Newton solver configurations, the per-iteration subsystem
call records, and the scope placements of the built core subsystems. -/
structure UnsteadyModel : Type where
  throttleBalances : List BalanceSpec
  throttleSolver : NewtonSolverConfig
  controlIterBalances : List BalanceSpec
  controlIterSolver : NewtonSolverConfig
  calls : List SubsystemCall
  placements : List PlacedSubsystem

/-- Scope routing of `UnsteadySolvedODE.setup`: the `isinstance` chain checks
`AerodynamicsBuilderBase` first (→ `control_iter_group`), then
`PropulsionBuilderBase` (→ `throttle_balance_group`), and otherwise adds the
subsystem to the ODE itself. -/
def unsteadyScope : BuilderKind → Scope
  | BuilderKind.aerodynamics => Scope.controlIterGroup
  | BuilderKind.propulsion => Scope.throttleBalanceGroup
  | BuilderKind.other => Scope.topLevel

/-- The aerodynamics promotes-input aliasing of `UnsteadySolvedODE.setup`:
when the aerodynamics builder's `code_origin` is FLOPS and
`'angle_of_attack'` is among its mission inputs, that entry is removed and
`('angle_of_attack', 'alpha')` appended. -/
def aeroAliasedInputs (s : SubsystemBuilder) : List Promoted :=
  if s.code_origin = LegacyCode.FLOPS ∧ "angle_of_attack" ∈ s.mission_inputs then
    (s.mission_inputs.erase "angle_of_attack").map Promoted.plain
      ++ [Promoted.aliased "angle_of_attack" "alpha"]
  else
    s.mission_inputs.map Promoted.plain

/-- The `add_subsystem` placement `UnsteadySolvedODE.setup` performs for one
built core subsystem. -/
def placeUnsteady (s : SubsystemBuilder) : PlacedSubsystem where
  name := s.name
  scope := unsteadyScope s.kind
  promotes_inputs :=
    match s.kind with
    | BuilderKind.aerodynamics => aeroAliasedInputs s
    | _ => s.mission_inputs.map Promoted.plain
  promotes_outputs := s.mission_outputs.map Promoted.plain

/-- The initial `kwargs` dictionary of `UnsteadySolvedODE.setup`:
`{'num_nodes': nn, 'aviary_inputs': aviary_options, 'method': 'low_speed'}`,
with `kwargs['method'] = 'cruise'` when the `clean` option is set. -/
def unsteadyKwargs0 (opts : UnsteadyOptions) : List (String × KwValue) :=
  [("num_nodes", KwValue.vNat opts.num_nodes),
   ("aviary_inputs", KwValue.vAviaryInputs),
   ("method", KwValue.vStr (if opts.clean then "cruise" else "low_speed"))]

/-- Shallow embedding of `UnsteadySolvedODE.setup`. -/
def unsteadySolvedODE (opts : UnsteadyOptions) : UnsteadyModel :=
  let nn := opts.num_nodes
  let res := odeLoop placeUnsteady opts.subsystem_options
    (unsteadyKwargs0 opts) opts.core_subsystems
  { throttleBalances := [throttleBalanceSpec nn opts.throttle_enforcement]
    throttleSolver := throttleBalanceSolverConfig
    controlIterBalances :=
      (if opts.ground_roll then [] else [alphaBalanceSpec nn])
        ++ [thrustReqBalanceSpec nn]
    controlIterSolver := controlIterSolverConfig
    calls := res.1
    placements := res.2 }

/-- Total number of `add_balance` calls (Balance Relationships) the phase
sets up. -/
def balanceCount (m : UnsteadyModel) : Nat :=
  m.throttleBalances.length + m.controlIterBalances.length

/-- Options of `GroundrollODE` relevant to its `setup`. -/
structure GroundrollOptions : Type where
  num_nodes : Nat
  core_subsystems : List SubsystemBuilder := []
  subsystem_options : List (String × List (String × KwValue)) := []

/-- The `set_input_defaults(Aircraft.Wing.INCIDENCE, val=-0.854237,
units='deg')` call at the end of `GroundrollODE.setup`. -/
def wingIncidenceDefaultDeg : ℚ := -854237 / 1000000

/-- The `init_alpha` ExecComp of `GroundrollODE.setup`:
`alpha = i_wing`, broadcasting the scalar wing incidence
(`Aircraft.Wing.INCIDENCE`) to one alpha value per node. -/
def init_alpha (nn : Nat) (i_wing : ℚ) : List ℚ :=
  List.replicate nn i_wing

/-- The `add_subsystem` placement `GroundrollODE.setup` performs for one
built core subsystem: every subsystem goes into the ODE itself
(`self.add_subsystem`), with plain promotes lists. -/
def placeGroundroll (s : SubsystemBuilder) : PlacedSubsystem where
  name := s.name
  scope := Scope.topLevel
  promotes_inputs := s.mission_inputs.map Promoted.plain
  promotes_outputs := s.mission_outputs.map Promoted.plain

/-- Result of `GroundrollODE.setup`: the per-node alpha values as a function
of the scalar wing incidence input, the default value of that input, the
balances added by this setup (there are none — `GroundrollODE.setup` makes no
`add_balance` call), and the loop records. -/
structure GroundrollModel : Type where
  alphaOf : ℚ → List ℚ
  i_wing_default : ℚ
  balances : List BalanceSpec
  calls : List SubsystemCall
  placements : List PlacedSubsystem

/-- The initial `kwargs` dictionary of `GroundrollODE.setup`:
`{'num_nodes': nn, 'aviary_inputs': aviary_options, 'method': 'low_speed'}`. -/
def groundrollKwargs0 (opts : GroundrollOptions) : List (String × KwValue) :=
  [("num_nodes", KwValue.vNat opts.num_nodes),
   ("aviary_inputs", KwValue.vAviaryInputs),
   ("method", KwValue.vStr "low_speed")]

/-- Shallow embedding of `GroundrollODE.setup`. -/
def groundrollODE (opts : GroundrollOptions) : GroundrollModel :=
  let res := odeLoop placeGroundroll opts.subsystem_options
    (groundrollKwargs0 opts) opts.core_subsystems
  { alphaOf := fun i_wing => init_alpha opts.num_nodes i_wing
    i_wing_default := wingIncidenceDefaultDeg
    balances := []
    calls := res.1
    placements := res.2 }

/-- The `PropModelVariables` members used by the propeller map
(`MACH`, `CP`, `CT`, `J`). -/
inductive PropVar : Type
| MACH
| CP
| CT
| J
deriving DecidableEq

/-- A key of the dictionary returned by `read_data_file`: either a recognized
`PropModelVariables` member (after alias resolution) or the raw unrecognized
header string. -/
abbrev PropKey : Type := Sum PropVar String

/-- Header normalization stated in the source's `aliases` comment:
whitespaces are replaced with underscores and the header is converted to
lowercase before comparison with the alias keys (written here character by
character so that it evaluates by kernel reduction). -/
def normalizeHeader (s : String) : String :=
  ⟨(s.data.map (fun c => if c = ' ' then '_' else c)).map Char.toLower⟩

/-- The `aliases` table of `propeller_map.py`:
`MACH: ['m', 'mn', 'mach', 'mach_number']`, `CP: ['cp', 'power_coefficient']`,
`CT: ['ct', 'thrust_coefficient']`, `J: ['j', 'advance_ratio']`. -/
def aliasFor (h : String) : Option PropVar :=
  let n := normalizeHeader h
  if n ∈ ["m", "mn", "mach", "mach_number"] then some PropVar.MACH
  else if n ∈ ["cp", "power_coefficient"] then some PropVar.CP
  else if n ∈ ["ct", "thrust_coefficient"] then some PropVar.CT
  else if n ∈ ["j", "advance_ratio"] then some PropVar.J
  else none

/-- Modelled from the spec: `default_prop_units`
(`aviary/subsystems/propulsion/utils.py`, not among the given sources)
assigns units to each propeller map variable; Mach number, power
coefficient, thrust coefficient and advance ratio are all dimensionless
(`'unitless'`). -/
def default_prop_units : PropVar → String := fun _ => "unitless"

/-- Modelled from the spec: the element-wise
`convert_units(i, units, default_prop_units[key])` comprehension of
`_read_data` over one column, restricted to the fixed unit-conversion table's
trivial entries — identical unit strings convert identically, and a
non-convertible pair raises `TypeError` (`none` here). -/
def convertList (vals : List ℚ) (fromUnits toUnits : String) :
    Option (List ℚ) :=
  if fromUnits = toUnits then some vals else none

/-- One column of the dictionary returned by `read_data_file`: resolved key,
units string, and data values. -/
structure RawItem : Type where
  key : PropKey
  units : String
  vals : List ℚ

/-- Errors `_read_data` can raise: the `TypeError` for non-convertible units
and the no-valid-columns `UserWarning`
(`'No valid propeller variables found in data for ...'`). -/
inductive LoadError : Type
| typeError
| noValidColumns
deriving DecidableEq

/-- Mutable state of the `for key in get_keys(raw_data)` loop of
`_read_data`: `self.propeller_variables`, `self._original_data` and the
warnings emitted so far. -/
structure PropReadState : Type where
  propeller_variables : List (PropVar × String)
  original_data : List (PropKey × List ℚ)
  warnings : List String

/-- The warning message of `_read_data` for an unrecognized header. -/
def headerWarning (h : String) : String :=
  s!"header <{h}> was not recognized, and will be skipped"

/-- Initial contents of `self._original_data`: a dict comprehension giving
every `PropModelVariables` member an empty array. -/
def initOriginalData : List (PropKey × List ℚ) :=
  [(Sum.inl PropVar.MACH, []), (Sum.inl PropVar.CP, []),
   (Sum.inl PropVar.CT, []), (Sum.inl PropVar.J, [])]

/-- One iteration of the `_read_data` loop: a recognized key has its column
converted to the expected units (`TypeError` if not convertible) and is
entered into `propeller_variables`; an unrecognized key is skipped, with a
warning when the verbosity setting is at least 1. Either way the (converted)
column is saved into `_original_data`. -/
def readDataStep (verbosity : Nat) (st : PropReadState) (item : RawItem) :
    Except LoadError PropReadState :=
  match item.key with
  | Sum.inl pv =>
      match convertList item.vals item.units (default_prop_units pv) with
      | some converted =>
          Except.ok
            { propeller_variables :=
                assocSet st.propeller_variables pv (default_prop_units pv)
              original_data :=
                assocSet st.original_data (Sum.inl pv) converted
              warnings := st.warnings }
      | none => Except.error LoadError.typeError
  | Sum.inr h =>
      Except.ok
        { propeller_variables := st.propeller_variables
          original_data := assocSet st.original_data (Sum.inr h) item.vals
          warnings :=
            st.warnings ++ (if 1 ≤ verbosity then [headerWarning h] else []) }

/-- Result of a successful `PropellerMap._read_data`: the
`propeller_variables` dictionary, the emitted warnings, the raw
`_original_data`, and the working `self.data` copy
(`for key in self.data: self.data[key] = self._original_data[key]`). -/
structure PropellerMapData : Type where
  propeller_variables : List (PropVar × String)
  warnings : List String
  original_data : List (PropKey × List ℚ)
  data : PropVar → List ℚ

/-- Shallow embedding of `PropellerMap._read_data` over the already
alias-resolved columns: loop over every column, then raise the
no-valid-columns error if `propeller_variables` stayed empty, otherwise copy
`_original_data` into the working `data` dictionary. -/
def readData (verbosity : Nat) (raw : List RawItem) :
    Except LoadError PropellerMapData :=
  match raw.foldlM (readDataStep verbosity)
      ⟨[], initOriginalData, []⟩ with
  | Except.error e => Except.error e
  | Except.ok st =>
      if st.propeller_variables = [] then
        Except.error LoadError.noValidColumns
      else
        Except.ok
          { propeller_variables := st.propeller_variables
            warnings := st.warnings
            original_data := st.original_data
            data := fun pv => (assocGet st.original_data (Sum.inl pv)).getD [] }

/-- Modelled from the spec: `read_data_file` (`aviary/utils/csv_data_file.py`,
not among the given sources) reads the delimited file and maps each column
header through the given alias table, leaving unrecognized headers as plain
strings. A column is `(header, units, values)`. -/
def read_data_file (cols : List (String × String × List ℚ)) : List RawItem :=
  cols.map (fun c =>
    { key := match aliasFor c.1 with
        | some pv => Sum.inl pv
        | none => Sum.inr c.1
      units := c.2.1
      vals := c.2.2 })

/-- Propeller map ingestion: `read_data_file` followed by the `_read_data`
loop. -/
def readPropellerMap (verbosity : Nat)
    (cols : List (String × String × List ℚ)) :
    Except LoadError PropellerMapData :=
  readData verbosity (read_data_file cols)

theorem stepKwargs_keys_mono (sopts : List (String × List (String × KwValue)))
    (kw : List (String × KwValue)) (s : SubsystemBuilder) (k : String)
    (h : k ∈ dictKeys kw) : k ∈ dictKeys (stepKwargs sopts kw s) := by
  unfold stepKwargs
  cases assocGet sopts s.name with
  | none => exact h
  | some o => exact mem_keys_dictUpdate_of_mem kw o k h

theorem stepKwargs_keys_of_opts (sopts : List (String × List (String × KwValue)))
    (kw : List (String × KwValue)) (s : SubsystemBuilder)
    (o : List (String × KwValue)) (k : String)
    (ho : assocGet sopts s.name = some o) (hk : k ∈ dictKeys o) :
    k ∈ dictKeys (stepKwargs sopts kw s) := by
  unfold stepKwargs
  rw [ho]
  exact mem_keys_dictUpdate_of_mem_new kw o k hk

theorem odeLoop_calls_keys_mono (place : SubsystemBuilder → PlacedSubsystem)
    (sopts : List (String × List (String × KwValue)))
    (kw : List (String × KwValue)) (subs : List SubsystemBuilder) (k : String)
    (h : k ∈ dictKeys kw) :
    ∀ c ∈ (odeLoop place sopts kw subs).1, k ∈ dictKeys c.kwargs := by
  induction subs generalizing kw with
  | nil => intro c hc; cases hc
  | cons s rest ih =>
      intro c hc
      rcases List.mem_cons.mp hc with h0 | h0
      · subst h0
        exact stepKwargs_keys_mono sopts kw s k h
      · exact ih (stepKwargs sopts kw s)
          (stepKwargs_keys_mono sopts kw s k h) c h0

/-- The `kwargs` contents after the loop has processed a prefix of the
subsystem list. -/
def kwargsAfter (sopts : List (String × List (String × KwValue)))
    (kw : List (String × KwValue)) (subs : List SubsystemBuilder) :
    List (String × KwValue) :=
  subs.foldl (stepKwargs sopts) kw

theorem odeLoop_calls_append (place : SubsystemBuilder → PlacedSubsystem)
    (sopts : List (String × List (String × KwValue)))
    (kw : List (String × KwValue)) (l1 l2 : List SubsystemBuilder) :
    (odeLoop place sopts kw (l1 ++ l2)).1 =
      (odeLoop place sopts kw l1).1
        ++ (odeLoop place sopts (kwargsAfter sopts kw l1) l2).1 := by
  induction l1 generalizing kw with
  | nil => rfl
  | cons s rest ih =>
      exact congrArg
        (List.cons ⟨s.name, stepKwargs sopts kw s, s.builds⟩)
        (ih (stepKwargs sopts kw s))

theorem odeLoop_calls_length (place : SubsystemBuilder → PlacedSubsystem)
    (sopts : List (String × List (String × KwValue)))
    (kw : List (String × KwValue)) (subs : List SubsystemBuilder) :
    (odeLoop place sopts kw subs).1.length = subs.length := by
  induction subs generalizing kw with
  | nil => rfl
  | cons s rest ih =>
      exact congrArg Nat.succ (ih (stepKwargs sopts kw s))

theorem odeLoop_calls_keys_after (place : SubsystemBuilder → PlacedSubsystem)
    (sopts : List (String × List (String × KwValue)))
    (kw : List (String × KwValue)) (a : SubsystemBuilder)
    (post : List SubsystemBuilder) (o : List (String × KwValue)) (k : String)
    (ho : assocGet sopts a.name = some o) (hk : k ∈ dictKeys o) :
    ∀ c ∈ (odeLoop place sopts kw (a :: post)).1, k ∈ dictKeys c.kwargs := by
  intro c hc
  have hkey : k ∈ dictKeys (stepKwargs sopts kw a) :=
    stepKwargs_keys_of_opts sopts kw a o k ho hk
  rcases List.mem_cons.mp hc with h0 | h0
  · subst h0
    exact hkey
  · exact odeLoop_calls_keys_mono place sopts (stepKwargs sopts kw a) post k
      hkey c h0

theorem odeLoop_placements_eq (place : SubsystemBuilder → PlacedSubsystem)
    (sopts : List (String × List (String × KwValue)))
    (kw : List (String × KwValue)) (subs : List SubsystemBuilder) :
    (odeLoop place sopts kw subs).2 =
      (subs.filter (fun s => s.builds)).map place := by
  induction subs generalizing kw with
  | nil => rfl
  | cons s rest ih =>
      have h := ih (stepKwargs sopts kw s)
      show (if s.builds then [place s] else []) ++
          (odeLoop place sopts (stepKwargs sopts kw s) rest).2 =
        ((s :: rest).filter (fun s => s.builds)).map place
      rw [h, List.filter_cons]
      cases hb : s.builds <;> simp [hb]

theorem enforceBounds_unit_interval (z : ℚ) :
    0 ≤ enforceBounds (some 0) (some 1) z ∧ enforceBounds (some 0) (some 1) z ≤ 1 := by
  unfold enforceBounds
  exact ⟨le_min (by norm_num) (le_max_left 0 z), min_le_left 1 _⟩

/-- C1 counterexample: with the throttle enforcement policy disabled
(`throttle_enforcement=None`), `UnsteadySolvedODE.setup` still adds the
throttle-vs-thrust balance relationship to the throttle balance group — the
`add_balance` call is unconditional. -/
theorem C1_counterexample :
    ({ num_nodes := 3,
       throttle_enforcement := ThrottleEnforcement.disabled } :
        UnsteadyOptions).throttle_enforcement = ThrottleEnforcement.disabled
  ∧ (unsteadySolvedODE
      { num_nodes := 3,
        throttle_enforcement := ThrottleEnforcement.disabled }).throttleBalances
      ≠ [] := by
  exact ⟨rfl, by decide⟩

/-- C1 (amended): when the throttle enforcement policy is disabled, the phase
ODE still creates the throttle-vs-thrust balance relationship (throttle is
solved so that total thrust matches required thrust); the disabled mode only
means that no bounds are imposed on the throttle balance variable. -/
theorem C1_disabled_keeps_throttle_balance (opts : UnsteadyOptions)
    (h : opts.throttle_enforcement = ThrottleEnforcement.disabled) :
    (unsteadySolvedODE opts).throttleBalances =
      [throttleBalanceSpec opts.num_nodes ThrottleEnforcement.disabled]
  ∧ ∀ b ∈ (unsteadySolvedODE opts).throttleBalances,
      b.lower = none ∧ b.upper = none := by
  have h1 : (unsteadySolvedODE opts).throttleBalances =
      [throttleBalanceSpec opts.num_nodes opts.throttle_enforcement] := rfl
  rw [h1, h]
  refine ⟨rfl, ?_⟩
  intro b hb
  rw [List.mem_singleton.mp hb]
  exact ⟨rfl, rfl⟩

theorem C1_witness :
    (unsteadySolvedODE
      { num_nodes := 2,
        throttle_enforcement := ThrottleEnforcement.disabled }).throttleBalances =
      [throttleBalanceSpec 2 ThrottleEnforcement.disabled] :=
  (C1_disabled_keeps_throttle_balance
    { num_nodes := 2, throttle_enforcement := ThrottleEnforcement.disabled } rfl).1

/-- C2: in `UnsteadySolvedODE.setup` the angle-of-attack balance equation is
present exactly when the phase is not a ground-roll phase, and with an
identical subsystem set (all other options equal) a ground-roll phase sets up
exactly one fewer Balance Relationship than a non-ground-roll phase. -/
theorem C2_alpha_balance_iff_not_ground_roll (opts : UnsteadyOptions) :
    ((∃ b ∈ (unsteadySolvedODE opts).controlIterBalances, b.name = "alpha") ↔
        opts.ground_roll = false)
  ∧ balanceCount (unsteadySolvedODE { opts with ground_roll := true }) + 1 =
      balanceCount (unsteadySolvedODE { opts with ground_roll := false }) := by
  have hlist : (unsteadySolvedODE opts).controlIterBalances =
      (if opts.ground_roll then [] else [alphaBalanceSpec opts.num_nodes])
        ++ [thrustReqBalanceSpec opts.num_nodes] := rfl
  constructor
  · cases hg : opts.ground_roll with
    | true =>
        simp [hg] at hlist
        constructor
        · rintro ⟨b, hb, hname⟩
          rw [hlist] at hb
          have h2 : "thrust_req" = "alpha" := by
            rw [List.mem_singleton.mp hb] at hname
            exact hname
          exact absurd h2 (by decide)
        · intro h
          exact absurd h (by decide)
    | false =>
        constructor
        · intro _
          rfl
        · intro _
          simp [hg] at hlist
          rw [hlist]
          exact ⟨alphaBalanceSpec opts.num_nodes, List.mem_cons_self _ _, rfl⟩
  · simp [balanceCount, unsteadySolvedODE]

/-- C4: the `bounded` throttle enforcement mode imposes lower bound 0 and
upper bound 1 on the throttle balance variable, the throttle balance group
solver carries a bounds-respecting line search, and any Newton step passed
through that line search lands in [0, 1]; under every other enforcement mode
no bounds are imposed on the throttle balance variable. -/
theorem C4_bounded_throttle_clipping (opts : UnsteadyOptions) (x dx : ℚ) :
    (opts.throttle_enforcement = ThrottleEnforcement.bounded →
      ∀ b ∈ (unsteadySolvedODE opts).throttleBalances,
        b.lower = some 0 ∧ b.upper = some 1 ∧
        0 ≤ lineSearchStep b x dx ∧ lineSearchStep b x dx ≤ 1)
  ∧ (opts.throttle_enforcement ≠ ThrottleEnforcement.bounded →
      ∀ b ∈ (unsteadySolvedODE opts).throttleBalances,
        b.lower = none ∧ b.upper = none)
  ∧ (unsteadySolvedODE opts).throttleSolver.linesearch_bounds_enforce = true := by
  have h1 : (unsteadySolvedODE opts).throttleBalances =
      [throttleBalanceSpec opts.num_nodes opts.throttle_enforcement] := rfl
  refine ⟨?_, ?_, rfl⟩
  · intro he b hb
    rw [h1, he] at hb
    rw [List.mem_singleton.mp hb]
    refine ⟨rfl, rfl, ?_, ?_⟩
    · exact (enforceBounds_unit_interval (x + dx)).1
    · exact (enforceBounds_unit_interval (x + dx)).2
  · intro he b hb
    rw [h1] at hb
    rw [List.mem_singleton.mp hb]
    constructor
    · show (if opts.throttle_enforcement = ThrottleEnforcement.bounded
          then some (0 : ℚ) else none) = none
      rw [if_neg he]
    · show (if opts.throttle_enforcement = ThrottleEnforcement.bounded
          then some (1 : ℚ) else none) = none
      rw [if_neg he]

theorem C4_witness :
    ((throttleBalanceSpec 2 ThrottleEnforcement.bounded).lower = some 0
  ∧ (throttleBalanceSpec 2 ThrottleEnforcement.bounded).upper = some 1
  ∧ 0 ≤ lineSearchStep (throttleBalanceSpec 2 ThrottleEnforcement.bounded) (1/2) 7
  ∧ lineSearchStep (throttleBalanceSpec 2 ThrottleEnforcement.bounded) (1/2) 7 ≤ 1)
  ∧ (throttleBalanceSpec 3 ThrottleEnforcement.disabled).lower = none
  ∧ (throttleBalanceSpec 3 ThrottleEnforcement.disabled).upper = none := by
  constructor
  · exact (C4_bounded_throttle_clipping
      { num_nodes := 2, throttle_enforcement := ThrottleEnforcement.bounded }
      (1/2) 7).1 rfl _ (List.mem_singleton.mpr rfl)
  · exact (C4_bounded_throttle_clipping
      { num_nodes := 3, throttle_enforcement := ThrottleEnforcement.disabled }
      0 0).2.1 (by decide) _ (List.mem_singleton.mpr rfl)

/-- C5: the control initial guesses set by the `add_balance` calls of
`UnsteadySolvedODE.setup` are throttle = 0.5 at every node, angle of attack
= 0 at every node (when the angle-of-attack balance is present), and
thrust-required = 100 in newtons (the chosen force units) at every node. -/
theorem C5_initial_guesses (opts : UnsteadyOptions) :
    ((unsteadySolvedODE opts).throttleBalances.map BalanceSpec.val =
        [List.replicate opts.num_nodes (1 / 2 : ℚ)])
  ∧ ((unsteadySolvedODE opts).controlIterBalances.map
        (fun b => (b.name, b.val, b.units)) =
      (if opts.ground_roll then []
       else [("alpha", List.replicate opts.num_nodes (0 : ℚ), "rad")])
        ++ [("thrust_req", List.replicate opts.num_nodes (100 : ℚ), "N")]) := by
  cases hg : opts.ground_roll <;>
    simp [unsteadySolvedODE, hg, throttleBalanceSpec, alphaBalanceSpec,
      thrustReqBalanceSpec]

/-- C6 counterexample: only the throttle balance group solver sets
`err_on_non_converge`; the control iteration (alpha / thrust-required) solver
leaves it at the OpenMDAO default, so a diverged control-iteration solve is
not raised as an error — contradicting the claim that divergence is fatal for
both solves. -/
theorem C6_counterexample :
    ¬ (raisesOnDiverged (unsteadySolvedODE { num_nodes := 3 }).throttleSolver = true
      ∧ raisesOnDiverged
          (unsteadySolvedODE { num_nodes := 3 }).controlIterSolver = true) := by
  intro h
  exact absurd h.2 (by decide)

/-- C6 (amended): a diverged throttle-balance solve is surfaced as a raised
error (`err_on_non_converge` is set to True on that group's Newton solver),
but the control-iteration (alpha / thrust-required) solver never sets
`err_on_non_converge`, so its divergence is not raised to the caller. -/
theorem C6_divergence_error_flags (opts : UnsteadyOptions) :
    raisesOnDiverged (unsteadySolvedODE opts).throttleSolver = true
  ∧ raisesOnDiverged (unsteadySolvedODE opts).controlIterSolver = false :=
  ⟨rfl, rfl⟩

/-- C10: in `GroundrollODE.setup` angle of attack is not a solved control
(the setup adds no balance at all); the per-node alpha vector is the single
scalar wing incidence `Aircraft.Wing.INCIDENCE` broadcast over all nodes, and
that input defaults to -0.854237 degrees. -/
theorem C10_groundroll_alpha_broadcast (opts : GroundrollOptions) (i_wing : ℚ) :
    (groundrollODE opts).alphaOf i_wing = List.replicate opts.num_nodes i_wing
  ∧ (groundrollODE opts).i_wing_default = -854237 / 1000000
  ∧ (groundrollODE opts).balances = [] :=
  ⟨rfl, rfl, rfl⟩

/-- A propulsion-type core subsystem builder used as a concrete example. -/
def propBuilderEx : SubsystemBuilder where
  name := "core_propulsion"
  kind := BuilderKind.propulsion
  code_origin := LegacyCode.GASP
  builds := true
  mission_inputs := ["throttle"]
  mission_outputs := ["thrust_net_total"]

/-- An aerodynamics-type core subsystem builder used as a concrete example. -/
def aeroBuilderEx : SubsystemBuilder where
  name := "core_aerodynamics"
  kind := BuilderKind.aerodynamics
  code_origin := LegacyCode.GASP
  builds := true
  mission_inputs := ["alpha"]
  mission_outputs := ["lift"]

/-- C3 counterexample: in `GroundrollODE.setup` a built propulsion-type
subsystem is added to the ODE's top-level scope, not to a throttle-balance
sub-scope — the ground-roll phase assembly has no `isinstance` routing at
all. -/
theorem C3_counterexample :
    ((groundrollODE
        { num_nodes := 2, core_subsystems := [propBuilderEx] }).placements.map
      (fun p => (p.name, p.scope))) = [("core_propulsion", Scope.topLevel)]
  ∧ Scope.topLevel ≠ Scope.throttleBalanceGroup := by
  exact ⟨rfl, by decide⟩

/-- C3 (amended): in `UnsteadySolvedODE.setup` every built propulsion-type
subsystem is placed into the throttle-balance sub-scope, every built
aerodynamics-type subsystem into the control-iteration sub-scope, and every
other built subsystem into the top-level scope, classified by declared
capability type (`isinstance` against the builder base classes, not name
string matching); in `GroundrollODE.setup`, by contrast, every built
subsystem is placed into the top-level scope. -/
theorem C3_subsystem_routing (uopts : UnsteadyOptions)
    (gopts : GroundrollOptions) (s : SubsystemBuilder)
    (hs : s ∈ uopts.core_subsystems) (hb : s.builds = true) :
    (∃ p ∈ (unsteadySolvedODE uopts).placements,
        p.name = s.name ∧ p.scope = unsteadyScope s.kind)
  ∧ (unsteadyScope BuilderKind.propulsion = Scope.throttleBalanceGroup
      ∧ unsteadyScope BuilderKind.aerodynamics = Scope.controlIterGroup
      ∧ unsteadyScope BuilderKind.other = Scope.topLevel)
  ∧ (∀ t : SubsystemBuilder, (placeUnsteady t).scope = unsteadyScope t.kind)
  ∧ (∀ p ∈ (groundrollODE gopts).placements, p.scope = Scope.topLevel) := by
  have hu : (unsteadySolvedODE uopts).placements =
      (uopts.core_subsystems.filter (fun t => t.builds)).map placeUnsteady :=
    odeLoop_placements_eq placeUnsteady uopts.subsystem_options
      (unsteadyKwargs0 uopts) uopts.core_subsystems
  have hgp : (groundrollODE gopts).placements =
      (gopts.core_subsystems.filter (fun t => t.builds)).map placeGroundroll :=
    odeLoop_placements_eq placeGroundroll gopts.subsystem_options
      (groundrollKwargs0 gopts) gopts.core_subsystems
  refine ⟨?_, ⟨rfl, rfl, rfl⟩, fun t => rfl, ?_⟩
  · refine ⟨placeUnsteady s, ?_, rfl, rfl⟩
    rw [hu]
    exact List.mem_map_of_mem placeUnsteady
      (List.mem_filter.mpr ⟨hs, by rw [hb]⟩)
  · intro p hp
    rw [hgp] at hp
    rcases List.mem_map.mp hp with ⟨t, _, ht⟩
    rw [← ht]
    rfl

theorem C3_witness :
    ∃ p ∈ (unsteadySolvedODE
        { num_nodes := 2, core_subsystems := [propBuilderEx] }).placements,
      p.name = propBuilderEx.name ∧ p.scope = unsteadyScope propBuilderEx.kind :=
  (C3_subsystem_routing
    { num_nodes := 2, core_subsystems := [propBuilderEx] }
    { num_nodes := 2 } propBuilderEx (List.mem_singleton.mpr rfl) rfl).1

/-- C9: in both phase ODE setups the `kwargs` dictionary accumulates across
the subsystem loop: once a subsystem with a `subsystem_options` entry has
been processed, every key of that entry is present in the `kwargs` passed to
the `build_mission` / `mission_inputs` / `mission_outputs` calls of that and
every later subsystem, because the shared dictionary is updated and never
reset between iterations. -/
theorem C9_kwargs_accumulate
    (uopts : UnsteadyOptions) (pre post : List SubsystemBuilder)
    (a : SubsystemBuilder) (o : List (String × KwValue)) (k : String)
    (h1 : uopts.core_subsystems = pre ++ a :: post)
    (h2 : assocGet uopts.subsystem_options a.name = some o)
    (h3 : k ∈ dictKeys o)
    (gopts : GroundrollOptions) (gpre gpost : List SubsystemBuilder)
    (ga : SubsystemBuilder) (go : List (String × KwValue)) (gk : String)
    (g1 : gopts.core_subsystems = gpre ++ ga :: gpost)
    (g2 : assocGet gopts.subsystem_options ga.name = some go)
    (g3 : gk ∈ dictKeys go) :
    (∀ c ∈ ((unsteadySolvedODE uopts).calls).drop pre.length,
        k ∈ dictKeys c.kwargs)
  ∧ (∀ c ∈ ((groundrollODE gopts).calls).drop gpre.length,
        gk ∈ dictKeys c.kwargs) := by
  constructor
  · have hcalls : (unsteadySolvedODE uopts).calls =
        (odeLoop placeUnsteady uopts.subsystem_options (unsteadyKwargs0 uopts)
          uopts.core_subsystems).1 := rfl
    rw [hcalls, h1,
      odeLoop_calls_append placeUnsteady uopts.subsystem_options
        (unsteadyKwargs0 uopts) pre (a :: post),
      List.drop_left'
        (odeLoop_calls_length placeUnsteady uopts.subsystem_options
          (unsteadyKwargs0 uopts) pre)]
    exact odeLoop_calls_keys_after placeUnsteady uopts.subsystem_options
      (kwargsAfter uopts.subsystem_options (unsteadyKwargs0 uopts) pre)
      a post o k h2 h3
  · have hcalls : (groundrollODE gopts).calls =
        (odeLoop placeGroundroll gopts.subsystem_options
          (groundrollKwargs0 gopts) gopts.core_subsystems).1 := rfl
    rw [hcalls, g1,
      odeLoop_calls_append placeGroundroll gopts.subsystem_options
        (groundrollKwargs0 gopts) gpre (ga :: gpost),
      List.drop_left'
        (odeLoop_calls_length placeGroundroll gopts.subsystem_options
          (groundrollKwargs0 gopts) gpre)]
    exact odeLoop_calls_keys_after placeGroundroll gopts.subsystem_options
      (kwargsAfter gopts.subsystem_options (groundrollKwargs0 gopts) gpre)
      ga gpost go gk g2 g3

/-- Unsteady phase options for the kwargs-accumulation example: the
aerodynamics subsystem comes first and carries a subsystem-options override. -/
def uoptsC9 : UnsteadyOptions where
  num_nodes := 2
  core_subsystems := [aeroBuilderEx, propBuilderEx]
  subsystem_options :=
    [("core_aerodynamics", [("ground_altitude", KwValue.vOther 0)])]

/-- Ground-roll phase options for the kwargs-accumulation example. -/
def goptsC9 : GroundrollOptions where
  num_nodes := 2
  core_subsystems := [aeroBuilderEx, propBuilderEx]
  subsystem_options :=
    [("core_aerodynamics", [("ground_altitude", KwValue.vOther 0)])]

theorem C9_witness :
    (∀ c ∈ ((unsteadySolvedODE uoptsC9).calls).drop 0,
        "ground_altitude" ∈ dictKeys c.kwargs)
  ∧ (∀ c ∈ ((groundrollODE goptsC9).calls).drop 0,
        "ground_altitude" ∈ dictKeys c.kwargs) :=
  C9_kwargs_accumulate uoptsC9 [] [propBuilderEx] aeroBuilderEx
    [("ground_altitude", KwValue.vOther 0)] "ground_altitude" rfl rfl
    (by decide)
    goptsC9 [] [propBuilderEx] aeroBuilderEx
    [("ground_altitude", KwValue.vOther 0)] "ground_altitude" rfl rfl
    (by decide)

theorem mem_keys_assocSet_elim {α β : Type} [DecidableEq α]
    (d : List (α × β)) (k k0 : α) (v : β)
    (h : k0 ∈ dictKeys (assocSet d k v)) : k0 ∈ dictKeys d ∨ k0 = k := by
  rw [assocSet_keys] at h
  split at h
  · exact Or.inl h
  · rcases List.mem_append.mp h with h1 | h1
    · exact Or.inl h1
    · exact Or.inr (List.mem_singleton.mp h1)

/-- The warnings one `_read_data` loop iteration appends. -/
def itemWarnings (v : Nat) (i : RawItem) : List String :=
  match i.key with
  | Sum.inl _ => []
  | Sum.inr h => if 1 ≤ v then [headerWarning h] else []

/-- The warnings the whole `_read_data` loop appends, in order. -/
def expectedWarnings (v : Nat) : List RawItem → List String
  | [] => []
  | i :: rest => itemWarnings v i ++ expectedWarnings v rest

theorem readDataStep_ok_warnings (v : Nat) (st st1 : PropReadState)
    (i : RawItem) (h : readDataStep v st i = Except.ok st1) :
    st1.warnings = st.warnings ++ itemWarnings v i := by
  cases i with
  | mk key units vals =>
      cases key with
      | inl pv =>
          simp only [readDataStep] at h
          cases hc : convertList vals units (default_prop_units pv) with
          | some c =>
              rw [hc] at h
              cases h
              simp [itemWarnings]
          | none =>
              rw [hc] at h
              cases h
      | inr hh =>
          simp only [readDataStep] at h
          cases h
          simp [itemWarnings]

theorem readDataStep_ok_propvars (v : Nat) (st st1 : PropReadState)
    (i : RawItem) (h : readDataStep v st i = Except.ok st1) :
    ∀ pv ∈ dictKeys st1.propeller_variables,
      pv ∈ dictKeys st.propeller_variables ∨ i.key = Sum.inl pv := by
  cases i with
  | mk key units vals =>
      cases key with
      | inl pv0 =>
          simp only [readDataStep] at h
          cases hc : convertList vals units (default_prop_units pv0) with
          | some c =>
              rw [hc] at h
              cases h
              intro pv hpv
              rcases mem_keys_assocSet_elim st.propeller_variables pv0 pv
                  (default_prop_units pv0) hpv with h1 | h1
              · exact Or.inl h1
              · exact Or.inr (by rw [h1])
          | none =>
              rw [hc] at h
              cases h
      | inr hh =>
          simp only [readDataStep] at h
          cases h
          intro pv hpv
          exact Or.inl hpv

theorem foldWarnings (v : Nat) (raw : List RawItem) :
    ∀ st st' : PropReadState,
      raw.foldlM (readDataStep v) st = Except.ok st' →
      st'.warnings = st.warnings ++ expectedWarnings v raw := by
  induction raw with
  | nil =>
      intro st st' h
      cases h
      simp [expectedWarnings]
  | cons i rest ih =>
      intro st st' h
      rw [List.foldlM_cons] at h
      cases hstep : readDataStep v st i with
      | error e =>
          rw [hstep] at h
          exact Except.noConfusion h
      | ok st1 =>
          rw [hstep] at h
          have h2 : rest.foldlM (readDataStep v) st1 = Except.ok st' := h
          show st'.warnings =
            st.warnings ++ (itemWarnings v i ++ expectedWarnings v rest)
          rw [ih st1 st' h2, readDataStep_ok_warnings v st st1 i hstep,
            List.append_assoc]

theorem foldPropVars (v : Nat) (raw : List RawItem) :
    ∀ st st' : PropReadState,
      raw.foldlM (readDataStep v) st = Except.ok st' →
      ∀ pv ∈ dictKeys st'.propeller_variables,
        pv ∈ dictKeys st.propeller_variables ∨ ∃ i ∈ raw, i.key = Sum.inl pv := by
  induction raw with
  | nil =>
      intro st st' h
      cases h
      intro pv hpv
      exact Or.inl hpv
  | cons i rest ih =>
      intro st st' h
      rw [List.foldlM_cons] at h
      cases hstep : readDataStep v st i with
      | error e =>
          rw [hstep] at h
          exact Except.noConfusion h
      | ok st1 =>
          rw [hstep] at h
          have h2 : rest.foldlM (readDataStep v) st1 = Except.ok st' := h
          intro pv hpv
          rcases ih st1 st' h2 pv hpv with h3 | ⟨j, hj, hjk⟩
          · rcases readDataStep_ok_propvars v st st1 i hstep pv h3 with h4 | h4
            · exact Or.inl h4
            · exact Or.inr ⟨i, List.mem_cons_self _ _, h4⟩
          · exact Or.inr ⟨j, List.mem_cons_of_mem _ hj, hjk⟩

theorem foldAllUnrecognized (v : Nat) (raw : List RawItem) :
    ∀ st : PropReadState, (∀ i ∈ raw, ∃ h, i.key = Sum.inr h) →
      ∃ st', raw.foldlM (readDataStep v) st = Except.ok st'
        ∧ st'.propeller_variables = st.propeller_variables := by
  induction raw with
  | nil =>
      intro st _
      exact ⟨st, rfl, rfl⟩
  | cons i rest ih =>
      intro st hall
      rcases hall i (List.mem_cons_self _ _) with ⟨hh, hk⟩
      have hstep : readDataStep v st i = Except.ok
          { propeller_variables := st.propeller_variables
            original_data := assocSet st.original_data (Sum.inr hh) i.vals
            warnings :=
              st.warnings ++ (if 1 ≤ v then [headerWarning hh] else []) } := by
        unfold readDataStep
        rw [hk]
      have hallrest : ∀ j ∈ rest, ∃ h, j.key = Sum.inr h :=
        fun j hj => hall j (List.mem_cons_of_mem _ hj)
      rcases ih
          { propeller_variables := st.propeller_variables
            original_data := assocSet st.original_data (Sum.inr hh) i.vals
            warnings :=
              st.warnings ++ (if 1 ≤ v then [headerWarning hh] else []) }
          hallrest with ⟨st', h1, h2⟩
      refine ⟨st', ?_, by rw [h2]⟩
      rw [List.foldlM_cons, hstep]
      exact h1

theorem expectedWarnings_read_data_file (v : Nat)
    (cols : List (String × String × List ℚ)) :
    expectedWarnings v (read_data_file cols) =
      if 1 ≤ v then
        (cols.filter (fun c => aliasFor c.1 = none)).map
          (fun c => headerWarning c.1)
      else [] := by
  induction cols with
  | nil => simp [expectedWarnings, read_data_file]
  | cons c rest ih =>
      simp only [read_data_file] at ih
      by_cases hv : 1 ≤ v <;>
        cases ha : aliasFor c.1 <;>
          simp [expectedWarnings, read_data_file, itemWarnings, ha, hv,
            List.filter_cons, ih]

theorem read_data_file_key_inl (cols : List (String × String × List ℚ))
    (i : RawItem) (hi : i ∈ read_data_file cols) (pv : PropVar)
    (hk : i.key = Sum.inl pv) : ∃ c ∈ cols, aliasFor c.1 = some pv := by
  rcases List.mem_map.mp hi with ⟨c, hc, hci⟩
  refine ⟨c, hc, ?_⟩
  rw [← hci] at hk
  have hk2 : (match aliasFor c.1 with
      | some pv2 => Sum.inl pv2
      | none => (Sum.inr c.1 : PropKey)) = Sum.inl pv := hk
  cases ha : aliasFor c.1 with
  | some pv2 =>
      rw [ha] at hk2
      have h3 : pv2 = pv := Sum.inl.inj hk2
      rw [h3]
  | none =>
      rw [ha] at hk2
      exact Sum.noConfusion hk2

theorem read_data_file_all_inr (cols : List (String × String × List ℚ))
    (hall : ∀ c ∈ cols, aliasFor c.1 = none) :
    ∀ i ∈ read_data_file cols, ∃ h, i.key = Sum.inr h := by
  intro i hi
  rcases List.mem_map.mp hi with ⟨c, hc, hci⟩
  refine ⟨c.1, ?_⟩
  rw [← hci]
  have hk2 : (match aliasFor c.1 with
      | some pv2 => Sum.inl pv2
      | none => (Sum.inr c.1 : PropKey)) =
      ({ key := match aliasFor c.1 with
          | some pv2 => Sum.inl pv2
          | none => Sum.inr c.1
         units := c.2.1
         vals := c.2.2 } : RawItem).key := rfl
  rw [← hk2, hall c hc]

/-- C7 counterexample: at verbosity 0 (quiet) an unrecognized data column is
still skipped and loading continues, but no warning is emitted — the claim
that every unrecognized column is skipped "with a non-fatal warning" fails
for quiet verbosity, where the warning is suppressed. -/
theorem C7_counterexample :
    ∃ r, readPropellerMap 0
        [("bogus", "unitless", [1]), ("mach", "unitless", [1])] = Except.ok r
      ∧ r.warnings = []
      ∧ dictKeys r.propeller_variables = [PropVar.MACH] := by
  refine ⟨_, rfl, rfl, rfl⟩

/-- C7 (amended): propeller map ingestion skips every unrecognized data
column and continues loading, emitting a non-fatal warning for it only when
the verbosity setting is at least 1; if no recognized column (mach, cp, ct,
or j under their aliases) is present, the load fails with the
no-valid-columns error. -/
theorem C7_unrecognized_columns (v : Nat)
    (cols : List (String × String × List ℚ)) :
    (∀ r, readPropellerMap v cols = Except.ok r →
        r.warnings = (if 1 ≤ v then
            (cols.filter (fun c => aliasFor c.1 = none)).map
              (fun c => headerWarning c.1)
          else [])
      ∧ ∀ pv ∈ dictKeys r.propeller_variables,
          ∃ c ∈ cols, aliasFor c.1 = some pv)
  ∧ ((∀ c ∈ cols, aliasFor c.1 = none) →
      readPropellerMap v cols = Except.error LoadError.noValidColumns) := by
  constructor
  · intro r hr
    simp only [readPropellerMap, readData] at hr
    cases hfold : (read_data_file cols).foldlM (readDataStep v)
        ⟨[], initOriginalData, []⟩ with
    | error e =>
        rw [hfold] at hr
        exact Except.noConfusion hr
    | ok st =>
        simp only [hfold] at hr
        by_cases hpv : st.propeller_variables = []
        · rw [if_pos hpv] at hr
          exact Except.noConfusion hr
        · rw [if_neg hpv] at hr
          have hrec := Except.ok.inj hr
          have hw : st.warnings = [] ++ expectedWarnings v (read_data_file cols) :=
            foldWarnings v (read_data_file cols) ⟨[], initOriginalData, []⟩ st hfold
          rw [List.nil_append] at hw
          constructor
          · rw [← hrec]
            exact hw.trans (expectedWarnings_read_data_file v cols)
          · intro pv hpv2
            have hpv3 : pv ∈ dictKeys st.propeller_variables := by
              rw [← hrec] at hpv2
              exact hpv2
            rcases foldPropVars v (read_data_file cols) ⟨[], initOriginalData, []⟩
                st hfold pv hpv3 with h4 | ⟨i, hi, hik⟩
            · exact absurd h4 (List.not_mem_nil pv)
            · exact read_data_file_key_inl cols i hi pv hik
  · intro hall
    rcases foldAllUnrecognized v (read_data_file cols) ⟨[], initOriginalData, []⟩
        (read_data_file_all_inr cols hall) with ⟨st', h1, h2⟩
    have h2a : st'.propeller_variables = [] := h2
    simp only [readPropellerMap, readData, h1]
    rw [if_pos h2a]

theorem C7_witness :
    readPropellerMap 1 [("junk", "unitless", [1])] =
      Except.error LoadError.noValidColumns
  ∧ ∃ r, readPropellerMap 1
        [("bogus", "unitless", [1]), ("mach", "unitless", [2])] = Except.ok r
      ∧ r.warnings = [headerWarning "bogus"] := by
  constructor
  · exact (C7_unrecognized_columns 1 [("junk", "unitless", [1])]).2 (by decide)
  · refine ⟨_, rfl, ?_⟩
    have h := (C7_unrecognized_columns 1
      [("bogus", "unitless", [1]), ("mach", "unitless", [2])]).1 _ rfl
    rw [h.1]
    rfl

/-- C8: loading a propeller map whose only columns are a `mach` and a `ct`
column (no `cp`, no `j`) succeeds, records exactly MACH and CT in
`propeller_variables`, and leaves `data[CP]` and `data[J]` as empty
sequences (while `data[MACH]` and `data[CT]` carry the file's columns). -/
theorem C8_mach_ct_only_load (v : Nat) (machVals ctVals : List ℚ) :
    ∃ r, readPropellerMap v
        [("mach", "unitless", machVals), ("ct", "unitless", ctVals)] =
        Except.ok r
      ∧ dictKeys r.propeller_variables = [PropVar.MACH, PropVar.CT]
      ∧ r.data PropVar.CP = [] ∧ r.data PropVar.J = []
      ∧ r.data PropVar.MACH = machVals ∧ r.data PropVar.CT = ctVals := by
  refine ⟨_, rfl, rfl, rfl, rfl, rfl, rfl⟩
